import Mathlib

/-!
Verification of the firmware-metadata tooling of this repository.

The Block Locator and field decoder are embedded from
`ESP32common/scripts/extract_firmware_metadata.py`; the post-build
versioning step is embedded from `ESP32common/scripts/version_firmware.py`.
Byte buffers are `List Nat` (each entry a byte value 0..255); the
observable result of a scan (the offset and the printed fields) is
returned as an `Option (Nat × Metadata)` instead of being printed.
-/

/-! ## Constants and primitive reads (extract_firmware_metadata.py) -/

def MAGIC_START : Nat := 0x464D5441

def MAGIC_END : Nat := 0x454E4446

/-- Little-endian 32-bit read, the embedding of
`struct.unpack('<I', data[i:i+4])[0]`.  Out-of-range indices read as 0;
every use in `extract_metadata` is in bounds. -/
def readLE32 (data : List Nat) (i : Nat) : Nat :=
  data.getD i 0 + 256 * data.getD (i + 1) 0 + 65536 * data.getD (i + 2) 0 +
    16777216 * data.getD (i + 3) 0

/-- Embedding of the `while end < offset + max_len and data[end] != 0` loop of
`read_cstring`: `cstring_end data e n` advances the cursor `e` while the byte
under it is non-zero, for at most `n` more steps (`n` is the remaining
distance to `offset + max_len`). -/
def cstring_end (data : List Nat) (e : Nat) : Nat → Nat
  | 0 => e
  | n + 1 => if data.getD e 0 ≠ 0 then cstring_end data (e + 1) n else e

/-- Worker for `utf8DecodeIgnore`.  The first argument is recursion fuel;
every call site supplies at least the list length, so the `0` case is never
reached on those calls. -/
def utf8DecodeIgnoreGo : Nat → List Nat → List Nat
  | 0, _ => []
  | _ + 1, [] => []
  | fuel + 1, b :: bs =>
    if b < 0x80 then b :: utf8DecodeIgnoreGo fuel bs
    else if 0xC2 ≤ b ∧ b ≤ 0xDF then
      match bs with
      | [] => []
      | c :: bs2 =>
        if 0x80 ≤ c ∧ c ≤ 0xBF then
          ((b - 0xC0) * 0x40 + (c - 0x80)) :: utf8DecodeIgnoreGo fuel bs2
        else utf8DecodeIgnoreGo fuel (c :: bs2)
    else if 0xE0 ≤ b ∧ b ≤ 0xEF then
      match bs with
      | [] => []
      | c :: bs2 =>
        if (if b = 0xE0 then 0xA0 else 0x80) ≤ c ∧ c ≤ (if b = 0xED then 0x9F else 0xBF) then
          match bs2 with
          | [] => []
          | d :: bs3 =>
            if 0x80 ≤ d ∧ d ≤ 0xBF then
              ((b - 0xE0) * 0x1000 + (c - 0x80) * 0x40 + (d - 0x80)) :: utf8DecodeIgnoreGo fuel bs3
            else utf8DecodeIgnoreGo fuel (d :: bs3)
        else utf8DecodeIgnoreGo fuel (c :: bs2)
    else if 0xF0 ≤ b ∧ b ≤ 0xF4 then
      match bs with
      | [] => []
      | c :: bs2 =>
        if (if b = 0xF0 then 0x90 else 0x80) ≤ c ∧ c ≤ (if b = 0xF4 then 0x8F else 0xBF) then
          match bs2 with
          | [] => []
          | d :: bs3 =>
            if 0x80 ≤ d ∧ d ≤ 0xBF then
              match bs3 with
              | [] => []
              | e :: bs4 =>
                if 0x80 ≤ e ∧ e ≤ 0xBF then
                  ((b - 0xF0) * 0x40000 + (c - 0x80) * 0x1000 + (d - 0x80) * 0x40 + (e - 0x80)) ::
                    utf8DecodeIgnoreGo fuel bs4
                else utf8DecodeIgnoreGo fuel (e :: bs4)
            else utf8DecodeIgnoreGo fuel (d :: bs3)
        else utf8DecodeIgnoreGo fuel (c :: bs2)
    else utf8DecodeIgnoreGo fuel bs

/-- Permissive UTF-8 decoding, the embedding of `.decode('utf-8', errors='ignore')`:
invalid sequences are skipped (maximal-subpart rule), never raising.  Input is a
byte list, output the list of decoded code points. -/
def utf8DecodeIgnore (l : List Nat) : List Nat := utf8DecodeIgnoreGo l.length l

/-- Embedding of `read_cstring(data, offset, max_len)`: compute the end of the
null-terminated run and decode the slice `data[offset:end]` permissively. -/
def read_cstring (data : List Nat) (offset max_len : Nat) : List Nat :=
  utf8DecodeIgnore ((data.drop offset).take (cstring_end data offset max_len - offset))

/-- The decoded, typed view of one firmware metadata block: the values the
script prints on a successful find. -/
structure Metadata where
  env_name : List Nat
  device_type : List Nat
  version_major : Nat
  version_minor : Nat
  version_patch : Nat
  build_date : List Nat
  deriving DecidableEq

/-- The field-extraction part of `extract_metadata` (lines 38-43): the reads
performed once a block has been located at offset `i`. -/
def extractFields (data : List Nat) (i : Nat) : Metadata :=
  ⟨read_cstring data (i + 4) 32,
   read_cstring data (i + 36) 16,
   data.getD (i + 52) 0,
   data.getD (i + 53) 0,
   data.getD (i + 54) 0,
   read_cstring data (i + 56) 48⟩

/-- The scan loop of `extract_metadata`: try candidate offsets `i`, `i+1`, ...
for `fuel` iterations (`fuel` is the number of remaining loop iterations of
`for i in range(len(data) - 128)`), returning the first offset whose start and
end markers both match, together with the fields decoded there. -/
def scanFrom (data : List Nat) (i : Nat) : Nat → Option (Nat × Metadata)
  | 0 => none
  | n + 1 =>
    if readLE32 data i = MAGIC_START then
      if readLE32 data (i + 124) = MAGIC_END then some (i, extractFields data i)
      else scanFrom data (i + 1) n
    else scanFrom data (i + 1) n

/-- Embedding of `extract_metadata`: scan candidate offsets
`range(len(data) - 128)` (note: in the source this range EXCLUDES the offset
`len(data) - 128` itself) and return the first valid block's offset and
decoded fields, or `none` when the script prints "No metadata found". -/
def extract_metadata (data : List Nat) : Option (Nat × Metadata) :=
  scanFrom data 0 (data.length - 128)

/-- A structurally valid block starts at offset `i`: the 4-byte little-endian
reads at `i` and `i + 124` give the start and end markers. -/
def blockAt (data : List Nat) (i : Nat) : Prop :=
  readLE32 data i = MAGIC_START ∧ readLE32 data (i + 124) = MAGIC_END

instance (data : List Nat) (i : Nat) : Decidable (blockAt data i) := by
  unfold blockAt; infer_instance

/-! ## Codec direct decode (spec-modelled) -/

/-- Which marker failed to match. -/
inductive MarkerKind where
  | startMarker : MarkerKind
  | endMarker : MarkerKind
  deriving DecidableEq

/-- Modelled from the spec: the Codec error taxonomy (§7); only
`InvalidMarker` exists, naming the mismatched marker.  The Codec's direct
decode API is not part of the Python sources under `src/`. -/
inductive FormatError where
  | InvalidMarker : MarkerKind → FormatError
  deriving DecidableEq

/-- Modelled from the spec: the Codec's direct decode of a 128-byte window
(§4.1): validate the start marker, validate the end marker, and only then
extract the fields; fail with `FormatError.InvalidMarker` naming the marker
that mismatched.  The field extraction reuses the reads of
`extract_metadata`, which is the repository's only decoder. -/
def codec_decode (w : List Nat) : Except FormatError Metadata :=
  if readLE32 w 0 = MAGIC_START then
    if readLE32 w 124 = MAGIC_END then Except.ok (extractFields w 0)
    else Except.error (FormatError.InvalidMarker MarkerKind.endMarker)
  else Except.error (FormatError.InvalidMarker MarkerKind.startMarker)

/-! ## Codec encode (spec-modelled) -/

/-- The typed record handed to the encoder: text fields as byte strings plus
the three version bytes. -/
structure RecordFields where
  environment_name : List Nat
  device_type : List Nat
  version_major : Nat
  version_minor : Nat
  version_patch : Nat
  build_date : List Nat
  deriving DecidableEq

/-- Little-endian bytes of a 32-bit value. -/
def le32 (v : Nat) : List Nat :=
  [v % 256, v / 256 % 256, v / 65536 % 256, v / 16777216 % 256]

/-- Modelled from the spec: encoding of one text field into its fixed-width
slot (§4.1): left-justified, truncated to `cap - 1` bytes when the value
would not leave room for its terminator, zero-padded to `cap`.  The encoder
is not part of the Python sources under `src/`. -/
def encodeText (s : List Nat) (cap : Nat) : List Nat :=
  (if cap ≤ s.length then s.take (cap - 1) else s) ++
    List.replicate (cap - (if cap ≤ s.length then s.take (cap - 1) else s).length) 0

/-- Modelled from the spec: the Codec's 128-byte encoding (§3 layout): start
marker, environment_name (32), device_type (16), three version bytes, one
reserved byte, build_date (48), 20 reserved bytes, end marker. -/
def encode (r : RecordFields) : List Nat :=
  le32 MAGIC_START ++ encodeText r.environment_name 32 ++ encodeText r.device_type 16 ++
    [r.version_major, r.version_minor, r.version_patch, 0] ++ encodeText r.build_date 48 ++
    List.replicate 20 0 ++ le32 MAGIC_END

/-! ## Concrete buffers used as test vectors -/

/-- A 128-byte buffer that IS one structurally valid block: start marker
bytes, 120 zero bytes, end marker bytes. -/
def c1buf : List Nat :=
  [0x41, 0x54, 0x4D, 0x46] ++ List.replicate 120 0 ++ [0x46, 0x44, 0x4E, 0x45]

/-- A 256-byte buffer: start-marker bytes at offset 0 with a mismatched end
marker at offset 124, and a fully valid block at offset 128 (= length - 128). -/
def c3buf : List Nat := c1buf.take 4 ++ List.replicate 124 0 ++ c1buf

/-- The same shape one byte longer (257 bytes), so that the valid block at
offset 128 falls inside the scanned range. -/
def c3okbuf : List Nat := c3buf ++ [0]

/-- A 129-byte buffer with a valid block at offset 0: environment_name
"demo", device_type "node", version bytes 255.255.255, build_date "x". -/
def c4buf : List Nat :=
  [0x41, 0x54, 0x4D, 0x46] ++ ([0x64, 0x65, 0x6D, 0x6F] ++ List.replicate 28 0) ++
    ([0x6E, 0x6F, 0x64, 0x65] ++ List.replicate 12 0) ++ [255, 255, 255, 0] ++
    ([0x78] ++ List.replicate 47 0) ++ List.replicate 20 0 ++ [0x46, 0x44, 0x4E, 0x45] ++ [0]

/-- A 129-byte buffer with a valid block at offset 0 whose 32-byte
environment_name slot holds 32 non-zero bytes (no NUL terminator). -/
def c5buf : List Nat :=
  [0x41, 0x54, 0x4D, 0x46] ++ List.replicate 32 0x41 ++
    ([0x6E, 0x6F, 0x64, 0x65] ++ List.replicate 12 0) ++ [1, 4, 2, 0] ++
    ([0x78] ++ List.replicate 47 0) ++ List.replicate 20 0 ++ [0x46, 0x44, 0x4E, 0x45] ++ [0]

/-- The record of the spec's concrete round-trip scenario: environment_name
"factory", device_type "node-a", version (1,4,2), build_date
"01-01-2024 00:00:00" (all as byte strings). -/
def x0 : RecordFields :=
  ⟨[0x66, 0x61, 0x63, 0x74, 0x6F, 0x72, 0x79],
   [0x6E, 0x6F, 0x64, 0x65, 0x2D, 0x61],
   1, 4, 2,
   [0x30, 0x31, 0x2D, 0x30, 0x31, 0x2D, 0x32, 0x30, 0x32, 0x34, 0x20,
    0x30, 0x30, 0x3A, 0x30, 0x30, 0x3A, 0x30, 0x30]⟩

/-- A 144-byte buffer: 16 zero bytes followed by the encoding of `x0`, so the
embedded block sits at offset 16 = length - 128 with no other marker
collision. -/
def c8buf : List Nat := List.replicate 16 0 ++ encode x0

/-! ## Post-build versioning step (version_firmware.py)

Paths and flags are `List Char`; the filesystem visible to the script is an
association list from paths to file contents, where an entry earlier in the
list shadows later ones (so prepending models `shutil.copy2`'s
create-or-overwrite).  Printing is not modelled; the script's only other
effect is the copy. -/

theorem cstring_end_ge (data : List Nat) : ∀ n e, e ≤ cstring_end data e n := by
  intro n
  induction n with
  | zero => intro e; exact Nat.le_refl e
  | succ n ih =>
    intro e
    unfold cstring_end
    split
    · exact Nat.le_trans (Nat.le_succ e) (ih (e + 1))
    · exact Nat.le_refl e

theorem cstring_slice (data : List Nat) : ∀ n e,
    (data.drop e).take (cstring_end data e n - e) =
      ((data.drop e).take n).takeWhile (fun b => b != 0) := by
  intro n
  induction n with
  | zero => intro e; simp [cstring_end]
  | succ n ih =>
    intro e
    unfold cstring_end
    by_cases h : data.getD e 0 ≠ 0
    · rw [if_pos h]
      have he : e < data.length := by
        by_contra hlen
        push_neg at hlen
        have hnone : data[e]? = none := List.getElem?_eq_none hlen
        rw [List.getD_eq_getElem?_getD, hnone] at h
        exact h rfl
      have hget : data.getD e 0 = data[e] := by
        rw [List.getD_eq_getElem?_getD, List.getElem?_eq_getElem he]
        rfl
      have hdrop : data.drop e = data[e] :: data.drop (e + 1) := List.drop_eq_getElem_cons he
      have hE : e + 1 ≤ cstring_end data (e + 1) n := cstring_end_ge data n (e + 1)
      have harith : cstring_end data (e + 1) n - e = (cstring_end data (e + 1) n - (e + 1)) + 1 := by
        omega
      have hpos : (data[e] != 0) = true := by
        rw [hget] at h
        exact bne_iff_ne.mpr h
      rw [hdrop, harith, List.take_succ_cons, List.take_succ_cons, List.takeWhile_cons]
      simp only [hpos, if_true]
      rw [ih (e + 1)]
    · rw [if_neg h]
      push_neg at h
      simp only [Nat.sub_self, List.take_zero]
      by_cases he : e < data.length
      · have hget : data.getD e 0 = data[e] := by
          rw [List.getD_eq_getElem?_getD, List.getElem?_eq_getElem he]
          rfl
        have hdrop : data.drop e = data[e] :: data.drop (e + 1) := List.drop_eq_getElem_cons he
        have hz : (data[e] != 0) = false := by
          rw [hget] at h
          simp [h]
        rw [hdrop, List.take_succ_cons, List.takeWhile_cons]
        simp [hz]
      · push_neg at he
        rw [List.drop_eq_nil_of_le he]
        simp

theorem utf8Go_nil : ∀ fuel : Nat, utf8DecodeIgnoreGo fuel [] = [] := by
  intro fuel
  cases fuel <;> rfl

set_option maxHeartbeats 1600000 in
theorem utf8Go_length_le : ∀ (fuel : Nat) (l : List Nat),
    (utf8DecodeIgnoreGo fuel l).length ≤ l.length := by
  intro fuel
  induction fuel with
  | zero => intro l; simp [utf8DecodeIgnoreGo]
  | succ fuel ih =>
    intro l
    cases l with
    | nil => simp [utf8DecodeIgnoreGo]
    | cons b bs =>
      cases bs with
      | nil =>
        have g0 := utf8Go_nil fuel
        simp only [utf8DecodeIgnoreGo]
        split_ifs <;> (simp only [g0, List.length_cons, List.length_nil] at *) <;> omega
      | cons c bs2 =>
        cases bs2 with
        | nil =>
          have g0 := utf8Go_nil fuel
          have k1 := ih [c]
          simp only [utf8DecodeIgnoreGo]
          split_ifs <;> (simp only [g0, List.length_cons, List.length_nil] at *) <;> omega
        | cons d bs3 =>
          cases bs3 with
          | nil =>
            have g0 := utf8Go_nil fuel
            have k1 := ih [c, d]
            have k2 := ih [d]
            simp only [utf8DecodeIgnoreGo]
            split_ifs <;> (simp only [g0, List.length_cons, List.length_nil] at *) <;> omega
          | cons e bs4 =>
            have k1 := ih (c :: d :: e :: bs4)
            have k2 := ih (d :: e :: bs4)
            have k3 := ih (e :: bs4)
            have k4 := ih bs4
            simp only [utf8DecodeIgnoreGo]
            split_ifs <;> (simp only [List.length_cons, List.length_nil] at *) <;> omega

theorem utf8_length_le : ∀ l : List Nat, (utf8DecodeIgnore l).length ≤ l.length := by
  intro l
  unfold utf8DecodeIgnore
  exact utf8Go_length_le l.length l

theorem scanFrom_some (data : List Nat) : ∀ n i j m, scanFrom data i n = some (j, m) →
    blockAt data j ∧ m = extractFields data j := by
  intro n
  induction n with
  | zero => intro i j m h; simp [scanFrom] at h
  | succ n ih =>
    intro i j m h
    unfold scanFrom at h
    by_cases h1 : readLE32 data i = MAGIC_START
    · rw [if_pos h1] at h
      by_cases h2 : readLE32 data (i + 124) = MAGIC_END
      · rw [if_pos h2] at h
        simp only [Option.some.injEq, Prod.mk.injEq] at h
        obtain ⟨rfl, rfl⟩ := h
        exact ⟨⟨h1, h2⟩, rfl⟩
      · rw [if_neg h2] at h
        exact ih (i + 1) j m h
    · rw [if_neg h1] at h
      exact ih (i + 1) j m h

theorem getD_drop_take (data : List Nat) (i k j : Nat) (h : j < k) :
    ((data.drop i).take k).getD j 0 = data.getD (i + j) 0 := by
  rw [List.getD_eq_getElem?_getD, List.getD_eq_getElem?_getD,
    List.getElem?_take_of_lt h, List.getElem?_drop]

theorem readLE32_window (data : List Nat) (i j : Nat) (h : j + 3 < 128) :
    readLE32 ((data.drop i).take 128) j = readLE32 data (i + j) := by
  unfold readLE32
  rw [getD_drop_take data i 128 j (by omega),
    getD_drop_take data i 128 (j + 1) (by omega),
    getD_drop_take data i 128 (j + 2) (by omega),
    getD_drop_take data i 128 (j + 3) (by omega)]
  have e1 : i + (j + 1) = i + j + 1 := by omega
  have e2 : i + (j + 2) = i + j + 2 := by omega
  have e3 : i + (j + 3) = i + j + 3 := by omega
  rw [e1, e2, e3]

/-! ## Claim theorems -/

set_option maxRecDepth 40000 in
/-- C1: evaluation at the failing input.  The claim says the Locator scans
the inclusive range [0, N-128]; `c1buf` is a 128-byte buffer that is itself
one structurally valid block (both markers match at offset 0, the last — and
only — admissible start offset), yet `extract_metadata` scans
`range(128 - 128) = {}` and reports not-found, where the claim requires
offset 0. -/
theorem locator_misses_final_offset_c1 :
    c1buf.length = 128 ∧ blockAt c1buf 0 ∧ extract_metadata c1buf = none := by
  refine ⟨by rfl, by decide, by rfl⟩

/-- C2: for every buffer strictly shorter than 128 bytes, the loop bound
`len(data) - 128` is zero — no candidate offset is scanned (hence no byte is
ever read) — and the Locator reports not-found. -/
theorem locator_short_buffer_notFound (data : List Nat) (h : data.length < 128) :
    data.length - 128 = 0 ∧ extract_metadata data = none := by
  have h0 : data.length - 128 = 0 := by omega
  refine ⟨h0, ?_⟩
  unfold extract_metadata
  rw [h0]
  rfl

/-- C2 witness: the spec's 127-byte scenario, with every byte 0xFF. -/
theorem locator_short_buffer_notFound_witness :
    (List.replicate 127 0xFF).length < 128 ∧
      extract_metadata (List.replicate 127 0xFF) = none :=
  ⟨by simp, (locator_short_buffer_notFound (List.replicate 127 0xFF) (by simp)).2⟩

set_option maxRecDepth 40000 in
/-- C3: evaluation at the failing input.  In `c3buf` (256 bytes) the start
marker matches at offset 0 but the end marker at 124 does not, and a fully
valid block sits at offset 128.  The code does continue past the false start
(`c3okbuf`, one byte longer, shows the valid block being found at 128), but
in `c3buf` the later satisfying offset 128 = N-128 is outside the scanned
range `range(N - 128)`, so the code returns not-found where the claim
requires it to return the later offset 128. -/
theorem locator_false_start_c3 :
    readLE32 c3buf 0 = MAGIC_START ∧ readLE32 c3buf 124 ≠ MAGIC_END ∧
      blockAt c3buf 128 ∧ extract_metadata c3buf = none ∧
      extract_metadata c3okbuf = some (128, extractFields c3okbuf 128) := by
  refine ⟨by decide, by decide, by decide, by rfl, by rfl⟩

/-- C6: the locate-and-decode operation is deterministic — its result is a
function of the buffer contents alone, so scanning equal buffers yields
equal results (same found/not-found outcome, offset and decoded fields). -/
theorem extract_metadata_deterministic (d1 d2 : List Nat) (h : d1 = d2) :
    extract_metadata d1 = extract_metadata d2 := by
  rw [h]

/-- C6 witness: two runs over the same concrete buffer agree. -/
theorem extract_metadata_deterministic_witness :
    extract_metadata [0, 1, 2] = extract_metadata [0, 1, 2] :=
  extract_metadata_deterministic [0, 1, 2] [0, 1, 2] rfl

/-- C4: when a block is found at offset `i`, each decoded text field is the
permissive UTF-8 decoding of the maximal run of non-zero bytes starting at
the field's first byte, cut at the first zero byte or at the slot capacity
(environment_name at `i+4` capacity 32, device_type at `i+36` capacity 16,
build_date at `i+56` capacity 48), and the three version components are
exactly the raw byte values at `i+52`, `i+53`, `i+54` — for every byte
value, with no sentinel interpretation. -/
theorem extract_fields_decoding (data : List Nat) (i : Nat) (m : Metadata)
    (h : extract_metadata data = some (i, m)) :
    m.env_name = utf8DecodeIgnore (((data.drop (i + 4)).take 32).takeWhile (fun b => b != 0)) ∧
      m.device_type =
        utf8DecodeIgnore (((data.drop (i + 36)).take 16).takeWhile (fun b => b != 0)) ∧
      m.build_date =
        utf8DecodeIgnore (((data.drop (i + 56)).take 48).takeWhile (fun b => b != 0)) ∧
      m.version_major = data.getD (i + 52) 0 ∧
      m.version_minor = data.getD (i + 53) 0 ∧
      m.version_patch = data.getD (i + 54) 0 := by
  have h2 : scanFrom data 0 (data.length - 128) = some (i, m) := h
  obtain ⟨hb, rfl⟩ := scanFrom_some data (data.length - 128) 0 i m h2
  unfold extractFields read_cstring
  rw [cstring_slice data 32 (i + 4), cstring_slice data 16 (i + 36),
    cstring_slice data 48 (i + 56)]
  exact ⟨rfl, rfl, rfl, rfl, rfl, rfl⟩

set_option maxRecDepth 40000 in
/-- C4 witness: on `c4buf` (block at offset 0, version bytes all 255) the
hypothesis holds by evaluation, and the version bytes decode verbatim as
255 — not as an error sentinel. -/
theorem extract_fields_decoding_witness :
    extract_metadata c4buf = some (0, extractFields c4buf 0) ∧
      ((extractFields c4buf 0).env_name =
          utf8DecodeIgnore (((c4buf.drop 4).take 32).takeWhile (fun b => b != 0)) ∧
        (extractFields c4buf 0).device_type =
          utf8DecodeIgnore (((c4buf.drop 36).take 16).takeWhile (fun b => b != 0)) ∧
        (extractFields c4buf 0).build_date =
          utf8DecodeIgnore (((c4buf.drop 56).take 48).takeWhile (fun b => b != 0)) ∧
        (extractFields c4buf 0).version_major = c4buf.getD 52 0 ∧
        (extractFields c4buf 0).version_minor = c4buf.getD 53 0 ∧
        (extractFields c4buf 0).version_patch = c4buf.getD 54 0) ∧
      (extractFields c4buf 0).version_major = 255 :=
  ⟨by rfl, extract_fields_decoding c4buf 0 (extractFields c4buf 0) (by rfl), by rfl⟩

set_option maxRecDepth 40000 in
/-- C5 counterexample: `c5buf` carries a located block whose 32-byte
environment_name slot holds 32 non-zero bytes, and the decoded
environment_name has length 32 — not at most 31 as the claim states. -/
theorem decoded_field_capacity_counterexample :
    extract_metadata c5buf = some (0, extractFields c5buf 0) ∧
      (extractFields c5buf 0).env_name.length = 32 :=
  ⟨by rfl, by rfl⟩

/-- C5 (amended): for every decoded block, each decoded text field is at
most its slot capacity — environment_name at most 32, device_type at most
16, build_date at most 48; the strict bound 31 claimed originally does not
hold when the slot is saturated with non-zero bytes. -/
theorem decoded_fields_le_capacity (data : List Nat) (i : Nat) (m : Metadata)
    (h : extract_metadata data = some (i, m)) :
    m.env_name.length ≤ 32 ∧ m.device_type.length ≤ 16 ∧ m.build_date.length ≤ 48 := by
  have h2 : scanFrom data 0 (data.length - 128) = some (i, m) := h
  obtain ⟨hb, rfl⟩ := scanFrom_some data (data.length - 128) 0 i m h2
  unfold extractFields read_cstring
  refine ⟨?_, ?_, ?_⟩ <;>
    · refine le_trans (utf8_length_le _) ?_
      rw [cstring_slice]
      refine le_trans ((List.takeWhile_sublist _).length_le) ?_
      exact List.length_take_le _ _

set_option maxRecDepth 40000 in
/-- C5 witness for the amended bound: on `c5buf` the saturated
environment_name reaches the capacity bound 32 exactly. -/
theorem decoded_fields_le_capacity_witness :
    extract_metadata c5buf = some (0, extractFields c5buf 0) ∧
      ((extractFields c5buf 0).env_name.length ≤ 32 ∧
        (extractFields c5buf 0).device_type.length ≤ 16 ∧
        (extractFields c5buf 0).build_date.length ≤ 48) :=
  ⟨by rfl, decoded_fields_le_capacity c5buf 0 (extractFields c5buf 0) (by rfl)⟩

/-- C7: the Codec's direct decode of a window raises `InvalidMarker` exactly
when the start or the end marker fails to match, naming the mismatched
marker (start checked first); and a 128-byte window obtained from an offset
returned by the Locator always decodes without error. -/
theorem codec_decode_marker_spec :
    (∀ w : List Nat,
      ((∃ e, codec_decode w = Except.error e) ↔
        (readLE32 w 0 ≠ MAGIC_START ∨ readLE32 w 124 ≠ MAGIC_END)) ∧
      (readLE32 w 0 ≠ MAGIC_START →
        codec_decode w = Except.error (FormatError.InvalidMarker MarkerKind.startMarker)) ∧
      (readLE32 w 0 = MAGIC_START → readLE32 w 124 ≠ MAGIC_END →
        codec_decode w = Except.error (FormatError.InvalidMarker MarkerKind.endMarker))) ∧
    (∀ (data : List Nat) (i : Nat) (m : Metadata), extract_metadata data = some (i, m) →
      ∃ m2, codec_decode ((data.drop i).take 128) = Except.ok m2) := by
  constructor
  · intro w
    refine ⟨⟨?_, ?_⟩, ?_, ?_⟩
    · rintro ⟨e, he⟩
      by_contra hc
      push_neg at hc
      obtain ⟨hs, hend⟩ := hc
      unfold codec_decode at he
      rw [if_pos hs, if_pos hend] at he
      cases he
    · intro hor
      unfold codec_decode
      by_cases hs : readLE32 w 0 = MAGIC_START
      · rcases hor with h1 | h2
        · exact absurd hs h1
        · rw [if_pos hs, if_neg h2]
          exact ⟨_, rfl⟩
      · rw [if_neg hs]
        exact ⟨_, rfl⟩
    · intro hs
      unfold codec_decode
      rw [if_neg hs]
    · intro hs hend
      unfold codec_decode
      rw [if_pos hs, if_neg hend]
  · intro data i m h
    have h2 : scanFrom data 0 (data.length - 128) = some (i, m) := h
    obtain ⟨⟨hs, hend⟩, -⟩ := scanFrom_some data (data.length - 128) 0 i m h2
    refine ⟨extractFields ((data.drop i).take 128) 0, ?_⟩
    unfold codec_decode
    rw [readLE32_window data i 0 (by omega), readLE32_window data i 124 (by omega)]
    rw [Nat.add_zero]
    rw [if_pos hs, if_pos hend]

set_option maxRecDepth 40000 in
/-- C7 witness: an all-zero window raises `InvalidMarker` on the start
marker, and the window at the offset the Locator returns on `c3okbuf`
decodes without error. -/
theorem codec_decode_marker_spec_witness :
    codec_decode (List.replicate 128 0) =
      Except.error (FormatError.InvalidMarker MarkerKind.startMarker) ∧
    (∃ m2, codec_decode ((c3okbuf.drop 128).take 128) = Except.ok m2) :=
  ⟨(codec_decode_marker_spec.1 (List.replicate 128 0)).2.1 (by decide),
   codec_decode_marker_spec.2 c3okbuf 128 (extractFields c3okbuf 128) (by rfl)⟩

set_option maxRecDepth 40000 in
/-- C8: evaluation at the failing input.  `c8buf` embeds the encoding of
the record `x0` at offset `k = 16` of a 144-byte buffer with no other
marker collision; decoding the 128-byte window at offset 16 recovers the
original fields exactly, yet the Locator misses the block because
`k = N - 128` lies outside `range(N - 128)`, and returns not-found where
the round-trip law requires offset 16. -/
theorem roundtrip_blocked_at_final_offset_c8 :
    c8buf = List.replicate 16 0 ++ encode x0 ∧ c8buf.length = 144 ∧ blockAt c8buf 16 ∧
      extract_metadata c8buf = none ∧
      codec_decode ((c8buf.drop 16).take 128) =
        Except.ok ⟨x0.environment_name, x0.device_type, x0.version_major, x0.version_minor,
          x0.version_patch, x0.build_date⟩ :=
  ⟨rfl, by rfl, by decide, by rfl, by rfl⟩

